import Mathlib

set_option maxRecDepth 8192

/-!
Verification development for the madtrees district-loading core (src/map.js).

The runtime logic of `map.js` is embedded shallowly:

* JSON feature data becomes explicit Lean structures (`Feature`, `Geometry`,
  `Props`).  Property values are modelled as `Option String` (absent key =
  `none`); JavaScript truthiness of such a value is "present and non-empty".
* The Leaflet marker-cluster layer is modelled as an opaque sink: a
  `RenderPoint` records exactly the data a created `circleMarker` closes
  over (the `[lat, lng]` position array and the feature's properties).
* The stateful functions (`loadDistrict`, `loadVisibleDistricts`) become
  pure state transformers `World → World × List Event`, where the event
  trace records the externally observable actions in order: network
  fetches, batch flushes to the cluster layer, yields to the event loop,
  progress reports, and the moment a district code is marked resident.
* Network behaviour is an oracle `fetch : String → FetchResult` mapping a
  shard filename to either failure (non-ok HTTP status or a JSON parse
  error, both of which throw before any feature is processed) or a parsed
  feature collection.
-/

/-- One entry of `districts_index.json`: code, display name, filename
(`districtInfo.code`, `.name`, `.filename` in map.js). -/
structure DistrictInfo where
  code : String
  name : String
  filename : String
deriving DecidableEq

/-- The parsed district index (`districtState.index`). -/
structure Catalog where
  districts : List DistrictInfo
  total_districts : Nat
  total_trees : Nat
deriving DecidableEq

/-- The property keys probed by the click handler in map.js (lines 128-133).
Absent keys are `none`; values are modelled as strings, whose JavaScript
truthiness is non-emptiness.  `nombre_cientifico` stands for the source key
"Nombre científico". -/
structure Props where
  sn : Option String
  species : Option String
  nombre_cientifico : Option String
  cn : Option String
  common_name : Option String
  CODIGO_ESP : Option String
  d : Option String
  diameter : Option String
  h : Option String
  height : Option String
  dt : Option String
  NBRE_DTO : Option String
  nb : Option String
  NBRE_BARRI : Option String
deriving DecidableEq

/-- The empty object used for `feature.properties || {}`. -/
def emptyProps : Props :=
  { sn := none, species := none, nombre_cientifico := none, cn := none
    common_name := none, CODIGO_ESP := none, d := none, diameter := none
    h := none, height := none, dt := none, NBRE_DTO := none
    nb := none, NBRE_BARRI := none }

/-- A GeoJSON-style geometry: the `coordinates` field may be absent
(`none`); when present it is an array of numbers of any length (map.js
never checks its arity). -/
structure Geometry where
  coordinates : Option (List Rat)
deriving DecidableEq

/-- One raw feature of a district file: `geometry` and `properties` may
each be absent. -/
structure Feature where
  geometry : Option Geometry
  properties : Option Props
deriving DecidableEq

/-- The data a created circle marker carries: the `[lat, lng]` position
array passed to `L.circleMarker` (entries are `none` when the destructuring
`const [lng, lat] = coordinates` yields `undefined`) and the captured
`props`. -/
structure RenderPoint where
  lat : Option Rat
  lng : Option Rat
  props : Props
deriving DecidableEq

/-- The guard of map.js line 113: `feature.geometry &&
feature.geometry.coordinates`.  Note both conjuncts are mere presence
(truthiness) checks; the length of the coordinate array is not inspected. -/
def hasGeometry (f : Feature) : Bool :=
  match f.geometry with
  | some g => g.coordinates.isSome
  | none => false

/-- Marker construction (map.js lines 114-125): `const [lng, lat] =
feature.geometry.coordinates` followed by `L.circleMarker([lat, lng], …)`,
with `props = feature.properties || {}`.  Only ever invoked under
`hasGeometry`. -/
def markerOf (f : Feature) : RenderPoint :=
  match f.geometry with
  | some g =>
      match g.coordinates with
      | some coords =>
          { lat := coords[1]?, lng := coords[0]?, props := f.properties.getD emptyProps }
      | none => { lat := none, lng := none, props := f.properties.getD emptyProps }
  | none => { lat := none, lng := none, props := f.properties.getD emptyProps }

/-- JavaScript truthiness of a possibly-absent string value. -/
def jsTruthy : Option String → Bool
  | some s => s ≠ ""
  | none => false

/-- JavaScript `a || b` on possibly-absent string values. -/
def jsOr (a b : Option String) : Option String :=
  match a with
  | some s => if s = "" then b else some s
  | none => b

/-- JavaScript `a || "dflt"` where the right operand is a non-empty string
literal. -/
def jsOrDefault (a : Option String) (dflt : String) : String :=
  match a with
  | some s => if s = "" then dflt else s
  | none => dflt

/-- Template-literal rendering of a value known to be truthy. -/
def jsToString : Option String → String
  | some s => s
  | none => "undefined"

/-- map.js line 128: `props.sn || props.species || props["Nombre
científico"] || "Especie desconocida"`. -/
def resolveSpecies (p : Props) : String :=
  jsOrDefault (jsOr (jsOr p.sn p.species) p.nombre_cientifico) "Especie desconocida"

/-- map.js line 129: `props.cn || props.common_name || props.CODIGO_ESP ||
""`. -/
def resolveCommonName (p : Props) : String :=
  jsOrDefault (jsOr (jsOr p.cn p.common_name) p.CODIGO_ESP) ""

/-- map.js line 130: `props.d || props.diameter ? (interpolation + " cm") :
"N/A"` — the ternary's condition is the truthiness of `props.d ||
props.diameter`. -/
def resolveDiameter (p : Props) : String :=
  if jsTruthy (jsOr p.d p.diameter) then jsToString (jsOr p.d p.diameter) ++ " cm"
  else "N/A"

/-- map.js line 131: `props.h || props.height ? (interpolation + " m") :
"N/A"`. -/
def resolveHeight (p : Props) : String :=
  if jsTruthy (jsOr p.h p.height) then jsToString (jsOr p.h p.height) ++ " m"
  else "N/A"

/-- map.js line 132: `props.dt || props.NBRE_DTO || ""`. -/
def resolveDistrict (p : Props) : String :=
  jsOrDefault (jsOr p.dt p.NBRE_DTO) ""

/-- map.js line 133: `props.nb || props.NBRE_BARRI || ""`. -/
def resolveNeighborhood (p : Props) : String :=
  jsOrDefault (jsOr p.nb p.NBRE_BARRI) ""

/-- A parsed district file (`data` in `loadDistrict`). -/
structure FeatureCollection where
  features : List Feature
deriving DecidableEq

/-- Outcome of fetching and JSON-parsing one district file: a non-ok HTTP
status or a parse error throws before any feature is processed
(`failure`); otherwise the parsed collection is available. -/
inductive FetchResult where
  | failure
  | success (data : FeatureCollection)
deriving DecidableEq

/-- Externally observable actions of the loading core, in order of
occurrence: a network request for a file, a `markers.addLayers` call with
one batch, a `yieldToMain()` suspension, a progress-text update, and the
insertion of a code into `loadedDistricts`. -/
inductive Event where
  | fetch (url : String)
  | flush (pts : List RenderPoint)
  | yieldToMain
  | progress (loaded total : Nat)
  | markResident (code : String)
deriving DecidableEq

/-- `const chunkSize = 500` (map.js line 108). -/
def chunkSize : Nat := 500

/-- The feature loop of `loadDistrict` (map.js lines 110-169), as a
function of the remaining features, the current loop index `i`, and the
current `districtMarkers` buffer.  Per iteration: the feature is converted
and buffered when `hasGeometry` holds; then, if `i > 0 && i % chunkSize
=== 0`, the buffer is spliced, flushed with `markers.addLayers`, and a
yield to the event loop follows.  After the loop, a non-empty remaining
buffer is flushed (lines 167-169). -/
def ingestLoop (cs : Nat) : List Feature → Nat → List RenderPoint → List Event
  | [], _, buf => if buf.isEmpty then [] else [Event.flush buf]
  | f :: rest, i, buf =>
      let buf' := if hasGeometry f then buf ++ [markerOf f] else buf
      if 0 < i ∧ i % cs = 0 then
        Event.flush buf' :: Event.yieldToMain :: ingestLoop cs rest (i + 1) []
      else
        ingestLoop cs rest (i + 1) buf'

/-- All render points handed to the cluster layer by a trace, in order. -/
def flushedPoints : List Event → List RenderPoint
  | [] => []
  | Event.flush pts :: rest => pts ++ flushedPoints rest
  | _ :: rest => flushedPoints rest

/-- The sizes of the flushed batches of a trace, in order. -/
def flushSizes : List Event → List Nat
  | [] => []
  | Event.flush pts :: rest => pts.length :: flushSizes rest
  | _ :: rest => flushSizes rest

/-- The number of yields to the host event loop in a trace. -/
def countYields : List Event → Nat
  | [] => 0
  | Event.yieldToMain :: rest => 1 + countYields rest
  | _ :: rest => countYields rest

/-- The mutable fields of `districtState` relevant to loading: the parsed
index, the resident set (`loadedDistricts`, a JS `Set` modelled as a
duplicate-free insertion-ordered list), and the re-entrancy flag. -/
structure DistrictState where
  index : Option Catalog
  loadedDistricts : List String
  isLoading : Bool
deriving DecidableEq

/-- Program state: `districtState` together with the contents of the
shared cluster layer `markers`. -/
structure World where
  st : DistrictState
  layer : List RenderPoint
deriving DecidableEq

/-- JS `Set.add`: idempotent insertion. -/
def addCode (l : List String) (c : String) : List String :=
  if c ∈ l then l else l ++ [c]

/-- `loadDistrict(districtInfo)` (map.js lines 90-179) as a state
transformer, parametrised by the network oracle `fetch`.  Already-resident
codes return immediately (lines 93-95) with no request.  A fetch/parse
failure is caught and logged; no state changes (lines 176-178).  On
success the features are ingested in chunks, and only then is the code
recorded in `loadedDistricts` (lines 171-172). -/
def loadDistrict (fetch : String → FetchResult) (w : World) (info : DistrictInfo) :
    World × List Event :=
  if info.code ∈ w.st.loadedDistricts then (w, [])
  else
    match fetch info.filename with
    | FetchResult.failure => (w, [Event.fetch info.filename])
    | FetchResult.success data =>
        let evs := ingestLoop chunkSize data.features 0 []
        ({ st := { w.st with loadedDistricts := addCode w.st.loadedDistricts info.code }
           layer := w.layer ++ flushedPoints evs },
         Event.fetch info.filename :: (evs ++ [Event.markResident info.code]))

/-- The viewport rectangle returned by `map.getBounds()`. -/
structure Bounds where
  south : Rat
  west : Rat
  north : Rat
  east : Rat
deriving DecidableEq

/-- `getVisibleDistricts()` (map.js lines 181-192): empty when the index
has not loaded; otherwise the full district list — the `zoom < 11` branch
returns the very same list as the fall-through. -/
def getVisibleDistricts (index : Option Catalog) (bounds : Bounds) (zoom : Int) :
    List DistrictInfo :=
  match index with
  | none => []
  | some idx => if zoom < 11 then idx.districts else idx.districts

/-- `districtState.index.districts.length`, read while reporting
progress. -/
def totalDistricts (st : DistrictState) : Nat :=
  match st.index with
  | some idx => idx.districts.length
  | none => 0

/-- The per-district loop of `loadVisibleDistricts` (map.js lines
201-215): skip resident codes; otherwise load the district, report
progress, and yield before the next district. -/
def loadLoop (fetch : String → FetchResult) : List DistrictInfo → World → World × List Event
  | [], w => (w, [])
  | dist :: rest, w =>
      if dist.code ∈ w.st.loadedDistricts then loadLoop fetch rest w
      else
        let r1 := loadDistrict fetch w dist
        let prog := Event.progress r1.1.st.loadedDistricts.length (totalDistricts r1.1.st)
        let r2 := loadLoop fetch rest r1.1
        (r2.1, r1.2 ++ (prog :: Event.yieldToMain :: r2.2))

/-- Assignment to `districtState.isLoading`. -/
def setLoading (w : World) (b : Bool) : World :=
  { w with st := { w.st with isLoading := b } }

/-- `loadVisibleDistricts()` (map.js lines 194-218): the re-entrancy guard
returns immediately when a cycle is in progress; otherwise the flag is
set, every visible district is processed in catalog order, and the flag is
cleared. -/
def loadVisibleDistricts (fetch : String → FetchResult) (bounds : Bounds) (zoom : Int)
    (w : World) : World × List Event :=
  if w.st.isLoading then (w, [])
  else
    let w1 := setLoading w true
    let ds := getVisibleDistricts w1.st.index bounds zoom
    let r := loadLoop fetch ds w1
    (setLoading r.1 false, r.2)

/-! ### Specification-side definitions

These follow the wording of the specification (not the code) and are used
to compare the code's behaviour with the spec's claims. -/

/-- Modelled from the spec: per-feature validity as the spec words it —
"must have a geometry with a two-element coordinate pair". -/
def hasTwoElementPair (f : Feature) : Bool :=
  match f.geometry with
  | some g =>
      match g.coordinates with
      | some coords => coords.length = 2
      | none => false
  | none => false

/-- Modelled from the spec: "probe candidate keys in a fixed priority
order and take the first present, non-empty value". -/
def firstPresentNonEmpty : List (Option String) → Option String
  | [] => none
  | none :: rest => firstPresentNonEmpty rest
  | some s :: rest => if s = "" then firstPresentNonEmpty rest else some s

/-- Modelled from the spec: attribute resolution — first present,
non-empty candidate, otherwise the documented default. -/
def specResolve (cands : List (Option String)) (dflt : String) : String :=
  match firstPresentNonEmpty cands with
  | some v => v
  | none => dflt

/-- Modelled from the spec: attribute resolution for the unit-suffixed
attributes (diameter in cm, height in m). -/
def specResolveUnit (cands : List (Option String)) (unit dflt : String) : String :=
  match firstPresentNonEmpty cands with
  | some v => v ++ unit
  | none => dflt

/-- Pure count of the yield points the ingestion loop produces for `n`
remaining features starting at loop index `i`. -/
def yieldCount (cs : Nat) : Nat → Nat → Nat
  | 0, _ => 0
  | n + 1, i => (if 0 < i ∧ i % cs = 0 then 1 else 0) + yieldCount cs n (i + 1)

/-- The flush-size schedule of the ingestion loop for all-valid features:
starting with a buffer of `blen` points and `d` features still to be
processed before the next in-loop flush, over `n` remaining features.  A
non-positive remainder is not flushed at the end. -/
def flushChunks (cs blen d n : Nat) : List Nat :=
  if _h : n ≤ d then (if blen + n = 0 then [] else [blen + n])
  else (blen + d + 1) :: flushChunks cs 0 (cs - 1) (n - d - 1)
termination_by n
decreasing_by omega

/-! ### Helper lemmas: the ingestion loop -/

/-- The points flushed by the ingestion loop are the pending buffer
followed by the converted valid features, each exactly once and in input
order. -/
lemma flushedPoints_ingestLoop (cs : Nat) :
    ∀ (fs : List Feature) (i : Nat) (buf : List RenderPoint),
      flushedPoints (ingestLoop cs fs i buf) =
        buf ++ (fs.filter hasGeometry).map markerOf := by
  intro fs
  induction fs with
  | nil =>
      intro i buf
      by_cases h : buf = []
      · subst h; simp [ingestLoop, flushedPoints]
      · simp [ingestLoop, h, flushedPoints]
  | cons f rest ih =>
      intro i buf
      by_cases hg : hasGeometry f
      · by_cases hy : 0 < i ∧ i % cs = 0
        · simp [ingestLoop, hg, hy, flushedPoints, ih]
        · simp [ingestLoop, hg, hy, ih]
      · by_cases hy : 0 < i ∧ i % cs = 0
        · simp [ingestLoop, hg, hy, flushedPoints, ih]
        · simp [ingestLoop, hg, hy, ih]

/-- The ingestion loop emits only flush and yield events. -/
lemma ingestLoop_events (cs : Nat) :
    ∀ (fs : List Feature) (i : Nat) (buf : List RenderPoint) (e : Event),
      e ∈ ingestLoop cs fs i buf →
      (∃ pts, e = Event.flush pts) ∨ e = Event.yieldToMain := by
  intro fs
  induction fs with
  | nil =>
      intro i buf e he
      by_cases h : buf = []
      · subst h; simp [ingestLoop] at he
      · simp [ingestLoop, h] at he
        exact Or.inl ⟨buf, he⟩
  | cons f rest ih =>
      intro i buf e he
      by_cases hy : 0 < i ∧ i % cs = 0
      · simp only [ingestLoop, if_pos hy, List.mem_cons] at he
        rcases he with rfl | rfl | he
        · exact Or.inl ⟨_, rfl⟩
        · exact Or.inr rfl
        · exact ih _ _ e he
      · simp only [ingestLoop, if_neg hy] at he
        exact ih _ _ e he

/-- The yield count of the ingestion loop depends only on the number of
remaining features and the starting index. -/
lemma countYields_ingestLoop (cs : Nat) :
    ∀ (fs : List Feature) (i : Nat) (buf : List RenderPoint),
      countYields (ingestLoop cs fs i buf) = yieldCount cs fs.length i := by
  intro fs
  induction fs with
  | nil =>
      intro i buf
      by_cases h : buf = []
      · subst h; simp [ingestLoop, countYields, yieldCount]
      · simp [ingestLoop, h, countYields, yieldCount]
  | cons f rest ih =>
      intro i buf
      by_cases hy : 0 < i ∧ i % cs = 0
      · simp [ingestLoop, hy, countYields, yieldCount, ih]
      · simp [ingestLoop, hy, countYields, yieldCount, ih]

/-- Closed form for the yield count when starting past index zero: the
number of positive multiples of `cs` in the index interval. -/
lemma yieldCount_shift (cs : Nat) (hcs : 0 < cs) :
    ∀ (n i : Nat), 0 < i →
      yieldCount cs n i = (i + n - 1) / cs - (i - 1) / cs := by
  intro n
  induction n with
  | zero => intro i hi; simp [yieldCount]
  | succ n ih =>
      intro i hi
      have hstep : yieldCount cs (n + 1) i
          = (if 0 < i ∧ i % cs = 0 then 1 else 0) + yieldCount cs n (i + 1) := rfl
      rw [hstep, ih (i + 1) (by omega)]
      have hsd : i / cs = (i - 1) / cs + if cs ∣ i then 1 else 0 := by
        have h2 := Nat.succ_div (i - 1) cs
        rw [Nat.sub_add_cancel hi] at h2
        exact h2
      have hm1 : (i - 1) / cs ≤ i / cs := Nat.div_le_div_right (by omega)
      have hm2 : i / cs ≤ (i + n) / cs := Nat.div_le_div_right (by omega)
      have hiff : (0 < i ∧ i % cs = 0) ↔ cs ∣ i := by
        constructor
        · intro hc
          exact Nat.dvd_iff_mod_eq_zero.mpr hc.2
        · intro hd
          exact ⟨hi, Nat.dvd_iff_mod_eq_zero.mp hd⟩
      rw [show i + 1 + n - 1 = i + n from by omega,
          show i + 1 - 1 = i from by omega,
          show i + (n + 1) - 1 = i + n from by omega]
      by_cases hd : cs ∣ i
      · rw [if_pos (hiff.mpr hd)]
        rw [if_pos hd] at hsd
        omega
      · rw [if_neg (fun hc => hd (hiff.mp hc))]
        rw [if_neg hd] at hsd
        omega

/-- Closed form for the yield count of a full ingestion run. -/
lemma yieldCount_from_zero (cs : Nat) (hcs : 0 < cs) (n : Nat) :
    yieldCount cs n 0 = (n - 1) / cs := by
  cases n with
  | zero => simp [yieldCount]
  | succ n =>
      have hstep : yieldCount cs (n + 1) 0
          = (if (0:Nat) < 0 ∧ 0 % cs = 0 then 1 else 0) + yieldCount cs n 1 := rfl
      rw [hstep, yieldCount_shift cs hcs n 1 (by omega)]
      simp

/-- Consuming one feature into the buffer moves the schedule one step:
one more buffered point, one step closer to the next flush. -/
lemma flushChunks_shift (cs blen d n : Nat) (hn : 0 < n) (hd : 0 < d) :
    flushChunks cs blen d n = flushChunks cs (blen + 1) (d - 1) (n - 1) := by
  conv_lhs => rw [flushChunks]
  conv_rhs => rw [flushChunks]
  by_cases h1 : n ≤ d
  · rw [dif_pos h1, dif_pos (show n - 1 ≤ d - 1 by omega)]
    rw [show blen + 1 + (n - 1) = blen + n from by omega]
  · rw [dif_neg h1, dif_neg (show ¬ n - 1 ≤ d - 1 by omega)]
    rw [show blen + 1 + (d - 1) + 1 = blen + d + 1 from by omega,
        show n - 1 - (d - 1) - 1 = n - d - 1 from by omega]

/-- For a run of all-valid features, the batch sizes flushed by the
ingestion loop follow the `flushChunks` schedule. -/
lemma flushSizes_ingestLoop :
    ∀ (fs : List Feature) (i : Nat) (buf : List RenderPoint),
      0 < i → (∀ f ∈ fs, hasGeometry f = true) →
      flushSizes (ingestLoop 500 fs i buf) =
        flushChunks 500 buf.length ((500 - i % 500) % 500) fs.length := by
  intro fs
  induction fs with
  | nil =>
      intro i buf _ _
      simp only [List.length_nil]
      conv_rhs => rw [flushChunks]
      rw [dif_pos (Nat.zero_le _)]
      by_cases h : buf = []
      · subst h; simp [ingestLoop, flushSizes]
      · have hlen : buf.length ≠ 0 := by
          simpa [List.length_eq_zero] using h
        simp [ingestLoop, h, flushSizes, hlen]
  | cons f rest ih =>
      intro i buf hi hall
      have hg : hasGeometry f = true := hall f (List.mem_cons_self f rest)
      have hall' : ∀ g ∈ rest, hasGeometry g = true :=
        fun g hgm => hall g (List.mem_cons_of_mem f hgm)
      by_cases hy : i % 500 = 0
      · have hcond : 0 < i ∧ i % 500 = 0 := ⟨hi, hy⟩
        have hd0 : (500 - i % 500) % 500 = 0 := by omega
        have hnext : (500 - (i + 1) % 500) % 500 = 499 := by omega
        simp only [ingestLoop, hg, if_true, if_pos hcond, flushSizes, List.length_cons]
        rw [ih (i + 1) [] (by omega) hall', hd0, hnext]
        conv_rhs => rw [flushChunks]
        rw [dif_neg (show ¬ rest.length + 1 ≤ 0 by omega)]
        rw [show rest.length + 1 - 0 - 1 = rest.length from by omega]
        simp
      · have hcond : ¬ (0 < i ∧ i % 500 = 0) := by omega
        have hdpos : 0 < (500 - i % 500) % 500 := by omega
        have hnext : (500 - (i + 1) % 500) % 500 = (500 - i % 500) % 500 - 1 := by
          omega
        simp only [ingestLoop, hg, if_true, if_neg hcond, List.length_cons]
        rw [ih (i + 1) (buf ++ [markerOf f]) (by omega) hall', hnext]
        rw [flushChunks_shift 500 buf.length ((500 - i % 500) % 500)
              (rest.length + 1) (by omega) hdpos]
        simp

/-- The batch-size schedule of a full all-valid ingestion run: a first
chunk of 501 features, then chunks of 500, then any non-empty remainder. -/
lemma flushSizes_ingestLoop_zero (fs : List Feature)
    (hall : ∀ f ∈ fs, hasGeometry f = true) :
    flushSizes (ingestLoop 500 fs 0 []) = flushChunks 500 0 500 fs.length := by
  cases fs with
  | nil =>
      conv_rhs => rw [flushChunks]
      simp only [List.length_nil]
      rw [dif_pos (by omega : (0:Nat) ≤ 500)]
      simp [ingestLoop, flushSizes]
  | cons f rest =>
      have hg : hasGeometry f = true := hall f (List.mem_cons_self f rest)
      have hall' : ∀ g ∈ rest, hasGeometry g = true :=
        fun g hgm => hall g (List.mem_cons_of_mem f hgm)
      have hred : ingestLoop 500 (f :: rest) 0 [] = ingestLoop 500 rest 1 [markerOf f] := by
        simp [ingestLoop, hg]
      rw [hred, flushSizes_ingestLoop rest 1 [markerOf f] (by omega) hall']
      simp only [List.length_cons, List.length_nil]
      rw [show ((500:Nat) - 1 % 500) % 500 = 499 from by norm_num]
      rw [flushChunks_shift 500 0 500 (rest.length + 1) (by omega) (by omega)]
      simp

/-! ### Helper lemmas: loadDistrict and the coordinator loop -/

lemma addCode_not_mem {l : List String} {c : String} (h : c ∉ l) :
    addCode l c = l ++ [c] := by
  simp [addCode, h]

/-- Already-resident districts are skipped with no events at all
(map.js lines 93-95). -/
lemma loadDistrict_resident (fetch : String → FetchResult) (w : World)
    (info : DistrictInfo) (h : info.code ∈ w.st.loadedDistricts) :
    loadDistrict fetch w info = (w, []) := by
  simp [loadDistrict, h]

/-- A fetch/parse failure is swallowed: the only event is the request, and
the state is untouched (map.js lines 176-178). -/
lemma loadDistrict_failure (fetch : String → FetchResult) (w : World)
    (info : DistrictInfo) (h1 : info.code ∉ w.st.loadedDistricts)
    (h2 : fetch info.filename = FetchResult.failure) :
    loadDistrict fetch w info = (w, [Event.fetch info.filename]) := by
  simp [loadDistrict, h1, h2]

/-- The successful path: ingest all features, extend the layer by exactly
the valid features' markers, and append the code to the resident set last. -/
lemma loadDistrict_success (fetch : String → FetchResult) (w : World)
    (info : DistrictInfo) (data : FeatureCollection)
    (h1 : info.code ∉ w.st.loadedDistricts)
    (h2 : fetch info.filename = FetchResult.success data) :
    loadDistrict fetch w info =
      ({ st := { w.st with loadedDistricts := w.st.loadedDistricts ++ [info.code] }
         layer := w.layer ++ (data.features.filter hasGeometry).map markerOf },
       Event.fetch info.filename ::
         (ingestLoop chunkSize data.features 0 [] ++ [Event.markResident info.code])) := by
  simp [loadDistrict, h1, h2, addCode_not_mem, flushedPoints_ingestLoop]

/-- One `loadDistrict` call either leaves the resident set alone or
appends exactly the district's own code. -/
lemma loadDistrict_resident_set (fetch : String → FetchResult) (w : World)
    (info : DistrictInfo) :
    (loadDistrict fetch w info).1.st.loadedDistricts = w.st.loadedDistricts ∨
    (loadDistrict fetch w info).1.st.loadedDistricts
      = w.st.loadedDistricts ++ [info.code] := by
  by_cases h : info.code ∈ w.st.loadedDistricts
  · left; rw [loadDistrict_resident fetch w info h]
  · cases h2 : fetch info.filename with
    | failure => left; rw [loadDistrict_failure fetch w info h h2]
    | success data => right; rw [loadDistrict_success fetch w info data h h2]

lemma loadDistrict_mem_mono (fetch : String → FetchResult) (w : World)
    (info : DistrictInfo) (a : String) (h : a ∈ w.st.loadedDistricts) :
    a ∈ (loadDistrict fetch w info).1.st.loadedDistricts := by
  rcases loadDistrict_resident_set fetch w info with h1 | h1 <;> rw [h1] <;> simp [h]

lemma loadDistrict_preserves (fetch : String → FetchResult) (w : World)
    (info : DistrictInfo) :
    (loadDistrict fetch w info).1.st.index = w.st.index ∧
    (loadDistrict fetch w info).1.st.isLoading = w.st.isLoading := by
  by_cases h : info.code ∈ w.st.loadedDistricts
  · rw [loadDistrict_resident fetch w info h]; exact ⟨rfl, rfl⟩
  · cases h2 : fetch info.filename with
    | failure => rw [loadDistrict_failure fetch w info h h2]; exact ⟨rfl, rfl⟩
    | success data => rw [loadDistrict_success fetch w info data h h2]; exact ⟨rfl, rfl⟩

/-- After a successful fetch the district's code is resident. -/
lemma loadDistrict_mem_after_success (fetch : String → FetchResult) (w : World)
    (info : DistrictInfo) (data : FeatureCollection)
    (h2 : fetch info.filename = FetchResult.success data) :
    info.code ∈ (loadDistrict fetch w info).1.st.loadedDistricts := by
  by_cases h : info.code ∈ w.st.loadedDistricts
  · rw [loadDistrict_resident fetch w info h]; exact h
  · rw [loadDistrict_success fetch w info data h h2]; simp

lemma loadLoop_mem_mono (fetch : String → FetchResult) :
    ∀ (ds : List DistrictInfo) (w : World) (a : String),
      a ∈ w.st.loadedDistricts → a ∈ (loadLoop fetch ds w).1.st.loadedDistricts := by
  intro ds
  induction ds with
  | nil => intro w a h; simpa [loadLoop] using h
  | cons dist rest ih =>
      intro w a h
      by_cases hr : dist.code ∈ w.st.loadedDistricts
      · simpa [loadLoop, hr] using ih w a h
      · simpa [loadLoop, hr] using
          ih (loadDistrict fetch w dist).1 a (loadDistrict_mem_mono fetch w dist a h)

/-- Every catalog district whose fetch succeeds ends the cycle resident,
regardless of other districts' failures. -/
lemma loadLoop_success_mem (fetch : String → FetchResult) :
    ∀ (ds : List DistrictInfo) (w : World) (e : DistrictInfo)
      (data : FeatureCollection), e ∈ ds →
      fetch e.filename = FetchResult.success data →
      e.code ∈ (loadLoop fetch ds w).1.st.loadedDistricts := by
  intro ds
  induction ds with
  | nil => intro w e data he; cases he
  | cons dist rest ih =>
      intro w e data he hf
      rcases List.mem_cons.mp he with rfl | he'
      · by_cases hr : e.code ∈ w.st.loadedDistricts
        · simpa [loadLoop, hr] using loadLoop_mem_mono fetch rest w e.code hr
        · simpa [loadLoop, hr] using
            loadLoop_mem_mono fetch rest (loadDistrict fetch w e).1 e.code
              (loadDistrict_mem_after_success fetch w e data hf)
      · by_cases hr : dist.code ∈ w.st.loadedDistricts
        · simpa [loadLoop, hr] using ih w e data he' hf
        · simpa [loadLoop, hr] using ih (loadDistrict fetch w dist).1 e data he' hf

/-- A code none of whose catalog entries fetches successfully stays
non-resident through the whole cycle. -/
lemma loadLoop_not_mem (fetch : String → FetchResult) :
    ∀ (ds : List DistrictInfo) (w : World) (a : String),
      a ∉ w.st.loadedDistricts →
      (∀ e ∈ ds, e.code = a → fetch e.filename = FetchResult.failure) →
      a ∉ (loadLoop fetch ds w).1.st.loadedDistricts := by
  intro ds
  induction ds with
  | nil => intro w a h _; simpa [loadLoop] using h
  | cons dist rest ih =>
      intro w a h hfail
      have hfail' : ∀ e ∈ rest, e.code = a → fetch e.filename = FetchResult.failure :=
        fun e he => hfail e (List.mem_cons_of_mem dist he)
      by_cases hr : dist.code ∈ w.st.loadedDistricts
      · simpa [loadLoop, hr] using ih w a h hfail'
      · simp only [loadLoop, if_neg hr]
        by_cases hcode : dist.code = a
        · have hf : fetch dist.filename = FetchResult.failure :=
            hfail dist (List.mem_cons_self dist rest) hcode
          rw [loadDistrict_failure fetch w dist hr hf]
          exact ih w a h hfail'
        · cases h2 : fetch dist.filename with
          | failure =>
              rw [loadDistrict_failure fetch w dist hr h2]
              exact ih w a h hfail'
          | success data =>
              rw [loadDistrict_success fetch w dist data hr h2]
              refine ih _ a ?_ hfail'
              simp only [List.mem_append, List.mem_singleton]
              rintro (ha | ha)
              · exact h ha
              · exact hcode ha.symm

lemma loadLoop_preserves (fetch : String → FetchResult) :
    ∀ (ds : List DistrictInfo) (w : World),
      (loadLoop fetch ds w).1.st.index = w.st.index ∧
      (loadLoop fetch ds w).1.st.isLoading = w.st.isLoading := by
  intro ds
  induction ds with
  | nil => intro w; exact ⟨rfl, rfl⟩
  | cons dist rest ih =>
      intro w
      by_cases hr : dist.code ∈ w.st.loadedDistricts
      · simpa [loadLoop, hr] using ih w
      · have h1 := loadDistrict_preserves fetch w dist
        have h2 := ih (loadDistrict fetch w dist).1
        simp only [loadLoop, if_neg hr]
        exact ⟨h2.1.trans h1.1, h2.2.trans h1.2⟩

/-- When every district is already resident the loop does nothing. -/
lemma loadLoop_all_resident (fetch : String → FetchResult) :
    ∀ (ds : List DistrictInfo) (w : World),
      (∀ dist ∈ ds, dist.code ∈ w.st.loadedDistricts) →
      loadLoop fetch ds w = (w, []) := by
  intro ds
  induction ds with
  | nil => intro w _; rfl
  | cons dist rest ih =>
      intro w hall
      have hr : dist.code ∈ w.st.loadedDistricts := hall dist (List.mem_cons_self dist rest)
      simp only [loadLoop, if_pos hr]
      exact ih w (fun e he => hall e (List.mem_cons_of_mem dist he))

lemma setLoading_setLoading (w : World) (b1 b2 : Bool) :
    setLoading (setLoading w b1) b2 = setLoading w b2 := rfl

lemma setLoading_self (w : World) (b : Bool) (h : w.st.isLoading = b) :
    setLoading w b = w := by
  obtain ⟨⟨i, l, lo⟩, lay⟩ := w
  simp only [setLoading]
  simp_all

lemma getVisibleDistricts_some (idx : Catalog) (b : Bounds) (z : Int) :
    getVisibleDistricts (some idx) b z = idx.districts := by
  simp [getVisibleDistricts]

/-- Unfolding of `loadVisibleDistricts` when no cycle is in progress and
the index is loaded. -/
lemma loadVisibleDistricts_run (fetch : String → FetchResult) (b : Bounds) (z : Int)
    (w : World) (idx : Catalog) (hL : w.st.isLoading = false)
    (hI : w.st.index = some idx) :
    loadVisibleDistricts fetch b z w =
      (setLoading (loadLoop fetch idx.districts (setLoading w true)).1 false,
       (loadLoop fetch idx.districts (setLoading w true)).2) := by
  have hI' : (setLoading w true).st.index = some idx := hI
  simp [loadVisibleDistricts, hL, hI', getVisibleDistricts_some]

/-! ### Helper lemmas: attribute resolution -/

/-- A two-candidate JS fallback chain picks the first present, non-empty
candidate. -/
lemma resolve2_eq (a b : Option String) (dflt : String) :
    jsOrDefault (jsOr a b) dflt = specResolve [a, b] dflt := by
  cases a <;> cases b <;>
    simp only [jsOr, jsOrDefault, specResolve, firstPresentNonEmpty] <;>
    split_ifs <;>
    simp_all [jsOrDefault, specResolve, firstPresentNonEmpty]

/-- A three-candidate JS fallback chain picks the first present, non-empty
candidate. -/
lemma resolve3_eq (a b c : Option String) (dflt : String) :
    jsOrDefault (jsOr (jsOr a b) c) dflt = specResolve [a, b, c] dflt := by
  cases a <;> cases b <;> cases c <;>
    simp only [jsOr, jsOrDefault, specResolve, firstPresentNonEmpty] <;>
    split_ifs <;>
    simp_all [jsOr, jsOrDefault, specResolve, firstPresentNonEmpty]

/-- The ternary-with-unit JS pattern picks the first present, non-empty
candidate and suffixes the unit, else the default. -/
lemma resolveUnit_eq (a b : Option String) (unit dflt : String) :
    (if jsTruthy (jsOr a b) then jsToString (jsOr a b) ++ unit else dflt)
      = specResolveUnit [a, b] unit dflt := by
  cases a <;> cases b <;>
    simp only [jsOr, jsTruthy, jsToString, specResolveUnit, firstPresentNonEmpty] <;>
    split_ifs <;>
    simp_all [jsOr, jsTruthy, jsToString, specResolveUnit, firstPresentNonEmpty]

/-- Unfolding of `loadVisibleDistricts` when no cycle is in progress. -/
lemma loadVisibleDistricts_run' (fetch : String → FetchResult) (b : Bounds) (z : Int)
    (w : World) (hL : w.st.isLoading = false) :
    loadVisibleDistricts fetch b z w =
      (setLoading (loadLoop fetch (getVisibleDistricts w.st.index b z) (setLoading w true)).1 false,
       (loadLoop fetch (getVisibleDistricts w.st.index b z) (setLoading w true)).2) := by
  simp only [loadVisibleDistricts, hL, Bool.false_eq_true, if_false]
  rfl

/-! ### Concrete fixtures for witnesses and counterexamples -/

/-- A feature with a well-formed two-element coordinate pair and no
attributes. -/
def goodFeature : Feature :=
  { geometry := some { coordinates := some [0, 0] }, properties := none }

/-- A feature whose coordinate array has a single element: its geometry
and coordinates are present (truthy) but it has no two-element pair. -/
def oneCoordFeature : Feature :=
  { geometry := some { coordinates := some [3] }, properties := none }

/-- A feature with no geometry at all. -/
def noGeomFeature : Feature := { geometry := none, properties := none }

def districtOne : DistrictInfo :=
  { code := "01", name := "Centro", filename := "d01.json" }

def districtTwo : DistrictInfo :=
  { code := "02", name := "Norte", filename := "d02.json" }

def catalogTwo : Catalog :=
  { districts := [districtOne, districtTwo], total_districts := 2, total_trees := 8 }

def worldStart : World :=
  { st := { index := some catalogTwo, loadedDistricts := [], isLoading := false }
    layer := [] }

def worldBusy : World :=
  { st := { index := some catalogTwo, loadedDistricts := [], isLoading := true }
    layer := [] }

def worldResident : World :=
  { st := { index := some catalogTwo, loadedDistricts := ["01", "02"], isLoading := false }
    layer := [] }

/-- Oracle: every fetch succeeds with one valid feature. -/
def fetchAllOk : String → FetchResult :=
  fun _ => FetchResult.success { features := [goodFeature] }

/-- Oracle: the first district's file fails (simulated HTTP 500), the
second succeeds. -/
def fetchSecondOnly : String → FetchResult :=
  fun s => if s = "d02.json" then FetchResult.success { features := [goodFeature] }
           else FetchResult.failure

def boundsZero : Bounds := { south := 0, west := 0, north := 0, east := 0 }

/-! ### Claims -/

/-- Claim C1, counterexample: the claim's validity criterion ("a geometry
with a two-element coordinate pair") does not match the code.  A feature
whose coordinate array has a single element has no two-element pair, so
per the claim it must be silently skipped and produce zero render points;
the code's guard checks only the presence of `geometry` and
`geometry.coordinates`, so the feature produces one render point. -/
theorem C1_counterexample :
    (flushedPoints (ingestLoop chunkSize [oneCoordFeature] 0 [])).length = 1 ∧
    ([oneCoordFeature].filter hasTwoElementPair).length = 0 := by
  constructor <;> rfl

/-- Claim C1, amended: a feature produces exactly one render point iff its
`geometry` object and its `coordinates` field are both present (truthy);
the arity of the coordinate array is never checked.  Features with missing
geometry or missing coordinates are silently skipped, so the render points
handed to the layer are exactly the present-geometry features' markers, in
input order, each exactly once — hence their number is the number of input
features minus the skipped ones and no feature is added twice. -/
theorem C1_theorem (fs : List Feature) :
    flushedPoints (ingestLoop chunkSize fs 0 []) = (fs.filter hasGeometry).map markerOf := by
  simpa using flushedPoints_ingestLoop chunkSize fs 0 []

/-- Claim C2: a district's code is added to the resident set only after
every one of its valid features has been handed to the rendering layer —
on success the trace is the request, then the ingestion events (flushes
and yields only, jointly handing over exactly the valid features'
markers), and the resident-set insertion strictly last; on fetch/parse
failure the state is untouched and the code is not resident.  Partial
ingestion is never recorded as loaded. -/
theorem C2_theorem (fetch : String → FetchResult) (w : World) (info : DistrictInfo)
    (h : info.code ∉ w.st.loadedDistricts) :
    (fetch info.filename = FetchResult.failure →
       loadDistrict fetch w info = (w, [Event.fetch info.filename]) ∧
       info.code ∉ (loadDistrict fetch w info).1.st.loadedDistricts) ∧
    (∀ data, fetch info.filename = FetchResult.success data →
       (loadDistrict fetch w info).2 =
         Event.fetch info.filename ::
           (ingestLoop chunkSize data.features 0 [] ++ [Event.markResident info.code]) ∧
       (∀ c, Event.markResident c ∉ ingestLoop chunkSize data.features 0 []) ∧
       flushedPoints (ingestLoop chunkSize data.features 0 [])
         = (data.features.filter hasGeometry).map markerOf ∧
       (loadDistrict fetch w info).1.st.loadedDistricts
         = w.st.loadedDistricts ++ [info.code] ∧
       (loadDistrict fetch w info).1.layer
         = w.layer ++ (data.features.filter hasGeometry).map markerOf) := by
  constructor
  · intro hf
    rw [loadDistrict_failure fetch w info h hf]
    exact ⟨rfl, h⟩
  · intro data hf
    rw [loadDistrict_success fetch w info data h hf]
    refine ⟨rfl, ?_, ?_, rfl, rfl⟩
    · intro c hc
      rcases ingestLoop_events chunkSize data.features 0 [] _ hc with ⟨pts, he⟩ | he <;>
        simp at he
    · simpa using flushedPoints_ingestLoop chunkSize data.features 0 []

/-- Claim C2, witness: with one district, an empty resident set and a
successful fetch of one valid feature, the new resident set is exactly the
old one extended by the district's code. -/
theorem C2_witness :
    (loadDistrict fetchAllOk worldStart districtOne).1.st.loadedDistricts
      = worldStart.st.loadedDistricts ++ [districtOne.code] :=
  (((C2_theorem fetchAllOk worldStart districtOne (by decide)).2
      { features := [goodFeature] } rfl).2.2.2).1

/-- Claim C3: a single district's fetch/parse failure is non-fatal.  For
any catalog and oracle, a district all of whose catalog entries fail stays
non-resident after the cycle, every district whose fetch succeeds becomes
resident (loading continues past the failure), and — because no error is
remembered in the state — re-running the coordinator with an oracle that
now succeeds for the failed district makes it resident. -/
theorem C3_theorem (fetch fetch2 : String → FetchResult) (b : Bounds) (z : Int)
    (w : World) (idx : Catalog) (dist : DistrictInfo)
    (hL : w.st.isLoading = false) (hI : w.st.index = some idx)
    (hd : dist ∈ idx.districts)
    (hdf : ∀ e ∈ idx.districts, e.code = dist.code →
             fetch e.filename = FetchResult.failure)
    (hnr : dist.code ∉ w.st.loadedDistricts) :
    dist.code ∉ (loadVisibleDistricts fetch b z w).1.st.loadedDistricts ∧
    (∀ e ∈ idx.districts, ∀ data, fetch e.filename = FetchResult.success data →
        e.code ∈ (loadVisibleDistricts fetch b z w).1.st.loadedDistricts) ∧
    (∀ data2, fetch2 dist.filename = FetchResult.success data2 →
        dist.code ∈
          (loadVisibleDistricts fetch2 b z
            (loadVisibleDistricts fetch b z w).1).1.st.loadedDistricts) := by
  have hrun := loadVisibleDistricts_run fetch b z w idx hL hI
  have hres : (loadVisibleDistricts fetch b z w).1.st.loadedDistricts
      = (loadLoop fetch idx.districts (setLoading w true)).1.st.loadedDistricts := by
    rw [hrun]
    rfl
  have hnr1 : dist.code ∉ (setLoading w true).st.loadedDistricts := hnr
  refine ⟨?_, ?_, ?_⟩
  · rw [hres]
    exact loadLoop_not_mem fetch idx.districts (setLoading w true) dist.code hnr1 hdf
  · intro e he data hf
    rw [hres]
    exact loadLoop_success_mem fetch idx.districts (setLoading w true) e data he hf
  · intro data2 hf2
    have hL2 : (loadVisibleDistricts fetch b z w).1.st.isLoading = false := by
      rw [hrun]
      rfl
    have hI2 : (loadVisibleDistricts fetch b z w).1.st.index = some idx := by
      rw [hrun]
      exact (loadLoop_preserves fetch idx.districts (setLoading w true)).1.trans hI
    rw [loadVisibleDistricts_run fetch2 b z (loadVisibleDistricts fetch b z w).1 idx hL2 hI2]
    exact loadLoop_success_mem fetch2 idx.districts _ dist data2 hd hf2

/-- Claim C3, witness: district 1's file fails, district 2's succeeds —
after one cycle only district 2's code is resident; re-running with an
all-success oracle then loads district 1. -/
theorem C3_witness :
    districtOne.code ∉
      (loadVisibleDistricts fetchSecondOnly boundsZero 12 worldStart).1.st.loadedDistricts ∧
    districtTwo.code ∈
      (loadVisibleDistricts fetchSecondOnly boundsZero 12 worldStart).1.st.loadedDistricts ∧
    districtOne.code ∈
      (loadVisibleDistricts fetchAllOk boundsZero 12
        (loadVisibleDistricts fetchSecondOnly boundsZero 12 worldStart).1).1.st.loadedDistricts := by
  have hmain := C3_theorem fetchSecondOnly fetchAllOk boundsZero 12 worldStart
    catalogTwo districtOne rfl rfl (by decide) (by decide) (by decide)
  exact ⟨hmain.1,
         hmain.2.1 districtTwo (by decide) { features := [goodFeature] } rfl,
         hmain.2.2 { features := [goodFeature] } rfl⟩

/-- Claim C4: invoking the coordinator while `isLoading` is set is a
complete no-op — the returned state is the input state unchanged and the
event trace is empty, so in particular no network request is issued. -/
theorem C4_theorem (fetch : String → FetchResult) (b : Bounds) (z : Int) (w : World)
    (h : w.st.isLoading = true) :
    loadVisibleDistricts fetch b z w = (w, []) := by
  simp [loadVisibleDistricts, h]

/-- Claim C4, witness: a concrete busy state is returned unchanged with an
empty trace. -/
theorem C4_witness :
    loadVisibleDistricts fetchAllOk boundsZero 12 worldBusy = (worldBusy, []) :=
  C4_theorem fetchAllOk boundsZero 12 worldBusy rfl

/-- Claim C5: idempotence for resident districts.  A `loadDistrict` call
on a resident code returns immediately with an empty trace (zero network
requests); loading a district a second time after a successful load is a
no-op, so the final layer (resident point count) after loading twice
equals the count after loading once; and a coordinator cycle in which
every visible district is already resident leaves the world unchanged with
no events at all. -/
theorem C5_theorem (fetch : String → FetchResult) (b : Bounds) (z : Int) (w : World)
    (info : DistrictInfo) :
    (info.code ∈ w.st.loadedDistricts → loadDistrict fetch w info = (w, [])) ∧
    (∀ data, fetch info.filename = FetchResult.success data →
       loadDistrict fetch (loadDistrict fetch w info).1 info
         = ((loadDistrict fetch w info).1, [])) ∧
    (w.st.isLoading = false →
       (∀ dist ∈ getVisibleDistricts w.st.index b z, dist.code ∈ w.st.loadedDistricts) →
       loadVisibleDistricts fetch b z w = (w, [])) := by
  refine ⟨fun h => loadDistrict_resident fetch w info h, ?_, ?_⟩
  · intro data hf
    exact loadDistrict_resident fetch (loadDistrict fetch w info).1 info
      (loadDistrict_mem_after_success fetch w info data hf)
  · intro hL hall
    rw [loadVisibleDistricts_run' fetch b z w hL,
        loadLoop_all_resident fetch (getVisibleDistricts w.st.index b z)
          (setLoading w true) hall]
    show (setLoading (setLoading w true) false, ([] : List Event)) = (w, [])
    rw [setLoading_setLoading, setLoading_self w false hL]

/-- Claim C5, witness: with both districts resident, a direct load of
district 1 is a no-op; loading district 1 twice from scratch gives the
same state as loading it once; and a full coordinator cycle over an
all-resident catalog is a no-op with an empty trace. -/
theorem C5_witness :
    loadDistrict fetchAllOk worldResident districtOne = (worldResident, []) ∧
    loadDistrict fetchAllOk (loadDistrict fetchAllOk worldStart districtOne).1 districtOne
      = ((loadDistrict fetchAllOk worldStart districtOne).1, []) ∧
    loadVisibleDistricts fetchAllOk boundsZero 12 worldResident = (worldResident, []) :=
  ⟨(C5_theorem fetchAllOk boundsZero 12 worldResident districtOne).1 (by decide),
   (C5_theorem fetchAllOk boundsZero 12 worldStart districtOne).2.1
     { features := [goodFeature] } rfl,
   (C5_theorem fetchAllOk boundsZero 12 worldResident districtOne).2.2 rfl (by decide)⟩

/-- Claim C6, counterexample: the claim computes the yield count from the
number of VALID features, but the code's yield condition tests the loop
index over ALL features.  A collection of 500 geometry-less features
followed by one valid feature has N = 1 valid feature, so the claim
predicts floor((1−1)/500) = 0 yields, yet the code yields once (at loop
index 500). -/
theorem C6_counterexample :
    countYields
      (ingestLoop chunkSize (List.replicate 500 noGeomFeature ++ [goodFeature]) 0 []) = 1 ∧
    ((List.replicate 500 noGeomFeature ++ [goodFeature]).filter hasTwoElementPair).length
      = 1 ∧
    (((List.replicate 500 noGeomFeature ++ [goodFeature]).filter
        hasTwoElementPair).length - 1) / chunkSize = 0 := by
  refine ⟨?_, by decide, by decide⟩
  rw [countYields_ingestLoop chunkSize (List.replicate 500 noGeomFeature ++ [goodFeature]) 0 [],
      yieldCount_from_zero chunkSize (by decide)]
  simp [chunkSize]

/-- Claim C6, amended: during one district's ingestion the number of
yields to the host event loop equals floor((N − 1)/500) where N is the
TOTAL number of features in the collection — valid and malformed alike —
not the number of valid features. -/
theorem C6_theorem (fs : List Feature) :
    countYields (ingestLoop chunkSize fs 0 []) = (fs.length - 1) / chunkSize := by
  rw [countYields_ingestLoop chunkSize fs 0 [],
      yieldCount_from_zero chunkSize (by decide) fs.length]

/-- Claim C7, counterexample: the claim says every non-final flush hands
over exactly 500 points, but the flush at loop index 500 happens after the
feature at index 500 was already buffered, so the FIRST flush carries 501
points.  With 502 valid features the flush sizes are [501, 1]: the
non-final flush has 501 points, not 500. -/
theorem C7_counterexample :
    flushSizes (ingestLoop chunkSize (List.replicate 502 goodFeature) 0 []) = [501, 1] ∧
    ¬ (∀ s ∈ (flushSizes
          (ingestLoop chunkSize (List.replicate 502 goodFeature) 0 [])).dropLast,
        s = 500) := by
  have hall : ∀ f ∈ List.replicate 502 goodFeature, hasGeometry f = true := by
    intro f hf
    rw [List.eq_of_mem_replicate hf]
    rfl
  have h1 : flushSizes (ingestLoop chunkSize (List.replicate 502 goodFeature) 0 [])
      = flushChunks 500 0 500 502 := by
    have h0 := flushSizes_ingestLoop_zero (List.replicate 502 goodFeature) hall
    simpa using h0
  have h2 : flushChunks 500 0 500 502 = [501, 1] := by
    rw [flushChunks, dif_neg (by omega : ¬ (502:Nat) ≤ 500)]
    rw [show (502:Nat) - 500 - 1 = 1 from by omega, show (500:Nat) - 1 = 499 from by omega]
    rw [flushChunks, dif_pos (by omega : (1:Nat) ≤ 499)]
    norm_num
  rw [h1, h2]
  exact ⟨rfl, by decide⟩

/-- Claim C7, amended: for an all-valid feature collection the flush
schedule is `flushChunks 500 0 500 N`: the first in-loop flush hands over
501 points (features 0 through 500 inclusive), every later in-loop flush
hands over exactly 500, and a final non-empty remainder smaller than a
full batch is flushed after the loop. -/
theorem C7_theorem (fs : List Feature) (hall : ∀ f ∈ fs, hasGeometry f = true) :
    flushSizes (ingestLoop chunkSize fs 0 []) = flushChunks 500 0 500 fs.length :=
  flushSizes_ingestLoop_zero fs hall

/-- Claim C7, witness: three valid features are flushed per the schedule
(a single final flush of 3). -/
theorem C7_witness :
    (∀ f ∈ List.replicate 3 goodFeature, hasGeometry f = true) ∧
    flushSizes (ingestLoop chunkSize (List.replicate 3 goodFeature) 0 [])
      = flushChunks 500 0 500 (List.replicate 3 goodFeature).length :=
  ⟨by decide, C7_theorem (List.replicate 3 goodFeature) (by decide)⟩

/-- Claim C8: for each of the six logical attributes the click handler's
resolved display value equals the first present, non-empty candidate value
probed in the source's fixed priority order (short form before long form),
with the documented default when no candidate qualifies — "Especie
desconocida" for species, "" for common name, "N/A" for diameter and
height (qualifying values get their unit suffix), "" for district and
neighborhood. -/
theorem C8_theorem (p : Props) :
    resolveSpecies p
      = specResolve [p.sn, p.species, p.nombre_cientifico] "Especie desconocida" ∧
    resolveCommonName p = specResolve [p.cn, p.common_name, p.CODIGO_ESP] "" ∧
    resolveDiameter p = specResolveUnit [p.d, p.diameter] " cm" "N/A" ∧
    resolveHeight p = specResolveUnit [p.h, p.height] " m" "N/A" ∧
    resolveDistrict p = specResolve [p.dt, p.NBRE_DTO] "" ∧
    resolveNeighborhood p = specResolve [p.nb, p.NBRE_BARRI] "" :=
  ⟨resolve3_eq p.sn p.species p.nombre_cientifico "Especie desconocida",
   resolve3_eq p.cn p.common_name p.CODIGO_ESP "",
   resolveUnit_eq p.d p.diameter " cm" "N/A",
   resolveUnit_eq p.h p.height " m" "N/A",
   resolve2_eq p.dt p.NBRE_DTO "",
   resolve2_eq p.nb p.NBRE_BARRI ""⟩

/-- Claim C9: for every viewport bounds and zoom level the relevance
policy returns the full ordered district list of the catalog whenever the
index is loaded (the zoom branch returns the same list, so viewport-based
filtering never restricts the set), and the empty list when the catalog
has not been loaded. -/
theorem C9_theorem :
    (∀ (idx : Catalog) (b : Bounds) (z : Int),
        getVisibleDistricts (some idx) b z = idx.districts) ∧
    (∀ (b : Bounds) (z : Int), getVisibleDistricts none b z = []) :=
  ⟨fun idx b z => getVisibleDistricts_some idx b z, fun _ _ => rfl⟩

/-- Claim C10: for every feature passing the geometry check with a
two-element coordinate array `[lng, lat]`, the marker is created at
`[lat, lng]` — the coordinate order is reversed, both numbers are taken
unchanged, and since this holds for arbitrary rationals no range
validation is performed. -/
theorem C10_theorem (lng lat : Rat) (ps : Option Props) :
    hasGeometry { geometry := some { coordinates := some [lng, lat] }
                  properties := ps } = true ∧
    markerOf { geometry := some { coordinates := some [lng, lat] }
               properties := ps }
      = { lat := some lat, lng := some lng, props := ps.getD emptyProps } := by
  exact ⟨rfl, rfl⟩
